import Mathlib

/-!
Verification of the trend-extrapolation engine of the Real Time Cloud
repository (`code/estimate_current_region_metadata.py`).

The Python code operates on a pandas DataFrame.  We embed it shallowly:

* a table row is a record of provider, region, integer year and an
  association list of (metric column, optional value);
* numeric cell values are idealised as rationals (`ℚ`); a missing value
  (pandas `NaN`) is `Option.none`;
* the exponential recency weights `np.exp(np.linspace(0, 1, k))` are
  irrational, so the weighted-trend average lives in `ℝ`;
* Python `round` (banker's rounding, half to even) is modelled exactly by
  `roundHE` / `roundHEQ` below;
* logging calls have no effect on any returned value and are dropped.
-/

namespace RTC

/-- `EstimationConfig` from the source, same fields and types
(floats idealised as `ℚ`, ints as `ℤ`/`ℕ`). -/
structure EstimationConfig where
  min_pue : ℚ
  max_cfe : ℚ
  min_cfe : ℚ
  min_carbon_intensity : ℚ
  max_estimate_years : ℤ
  min_data_points : ℕ
  outlier_threshold : ℚ
deriving DecidableEq

/-- The default `EstimationConfig()` values of the dataclass. -/
def defaultConfig : EstimationConfig := ⟨1, 1, 0, 0, 3, 2, 3⟩

/-- One input row: identifier columns plus the numeric metric cells.
`cells` is an association list from column name to an optional value
(`none` models a pandas `NaN`).  `cloud-provider` and `cloud-region` are
strings (the embedding assumes they are present, cf. claim C10). -/
structure Row where
  provider : String
  region : String
  year : ℤ
  cells : List (String × Option ℚ)
deriving DecidableEq

/-- `row[col]` for a metric column: the stored value, `none` when the cell
is `NaN` or the column is absent from the association list. -/
def Row.val (r : Row) (col : String) : Option ℚ :=
  (r.cells.lookup col).getD none

/-- The validated estimator state: the identified numeric metric columns
(`self.numeric_columns`) and the table rows (`self.df`). -/
structure Table where
  numericCols : List String
  rows : List Row
deriving DecidableEq

/-- `CARBON_INTENSITY_COLUMNS` from the source (exact names). -/
def CARBON_INTENSITY_COLUMNS : List String :=
  ["provider-carbon-intensity-market-annual",
   "provider-carbon-intensity-average-consumption-hourly",
   "grid-carbon-intensity-average-consumption-annual",
   "grid-carbon-intensity-marginal-consumption-annual",
   "grid-carbon-intensity-average-production-annual",
   "grid-carbon-intensity"]

/-- `CFE_COLUMNS` from the source (exact names). -/
def CFE_COLUMNS : List String :=
  ["provider-cfe-hourly", "provider-cfe-annual"]

/-!  `_detect_outliers`.

The Python computes `z = |(x - mean) / std|` with `std` the pandas sample
standard deviation (`ddof = 1`, divisor `n - 1`) over the non-missing
values, and flags `z > outlier_threshold`; a `NaN` entry gets `z = NaN`,
which compares false.  To stay inside `ℚ` we use the exact division-free
equivalent: for `S = Σ (x - mean)²` and `n` non-missing values,
`|x - mean| / sqrt (S / (n-1)) > t` iff
`S > 0 ∧ (t < 0 ∨ t² * S < (x - mean)² * (n - 1))`
(`S = 0` makes every z-score `0/0 = NaN`, hence unflagged; a negative
threshold is exceeded by every defined z-score).  The equivalence with the
square-root form is proved in `detectOutliers_iff_zscore` below. -/
/-- The non-missing values of a series (`series.dropna()`). -/
def obsValues (xs : List (Option ℚ)) : List ℚ := xs.filterMap id

/-- `series.mean()` over the non-missing values. -/
def listMeanQ (vs : List ℚ) : ℚ := vs.sum / vs.length

/-- `Σ (x - mean)²` of a series, the numerator of its variance. -/
def sumSqDev (vs : List ℚ) : ℚ :=
  (vs.map (fun x => (x - listMeanQ vs) ^ 2)).sum

def detectOutliers (t : ℚ) (xs : List (Option ℚ)) : List Bool :=
  if (obsValues xs).length < 3 then xs.map (fun _ => false)
  else
    xs.map (fun ox =>
      match ox with
      | none => false
      | some x =>
          decide (0 < sumSqDev (obsValues xs) ∧
            (t < 0 ∨ t ^ 2 * sumSqDev (obsValues xs) <
              (x - listMeanQ (obsValues xs)) ^ 2 * (((obsValues xs).length : ℚ) - 1))))

/-- `group.sort_values('year')` (a stable sort on the year column). -/
def sortByYear (g : List Row) : List Row :=
  g.insertionSort (fun a b => a.year ≤ b.year)

/-- Consecutive differences, `series.diff().dropna()`. -/
def diffsQ : List ℚ → List ℚ
  | a :: b :: t => (b - a) :: diffsQ (b :: t)
  | _ => []

/-- `group.sort_values('year').dropna(subset=[column])`: the year-sorted
rows that carry a value for the column. -/
def sortedNonMissing (col : String) (g : List Row) : List Row :=
  (sortByYear g).filter (fun r => (r.val col).isSome)

/-- `group_clean = group[~outliers]`: the rows whose position the outlier
filter left unflagged. -/
def cleanGroup (t : ℚ) (col : String) (g2 : List Row) : List Row :=
  ((g2.zip (detectOutliers t (g2.map (fun r => r.val col)))).filter
    (fun p => !p.2)).map (fun p => p.1)

/-- `group_clean[column].diff().dropna()`. -/
def cleanDiffs (cfg : EstimationConfig) (col : String) (g : List Row) : List ℚ :=
  diffsQ ((cleanGroup cfg.outlier_threshold col (sortedNonMissing col g)).filterMap
    (fun r => r.val col))

/-- The stages of `_calculate_weighted_trend` before the exponential
averaging, kept in `ℚ`: `none` means one of the `return 0.0` branches
fired; `some ds` means control reached `np.average` with the consecutive
differences `ds` of the outlier-cleaned, year-sorted series. -/
def trendDiffs (cfg : EstimationConfig) (col : String) (g : List Row) :
    Option (List ℚ) :=
  if g.length < cfg.min_data_points then none
  else if (sortedNonMissing col g).length < cfg.min_data_points then none
  else if (cleanGroup cfg.outlier_threshold col (sortedNonMissing col g)).length <
      cfg.min_data_points then none
  else if (cleanDiffs cfg col g).length = 0 then none
  else some (cleanDiffs cfg col g)

/-- `np.linspace 0 1 k` (for `k = 1` numpy returns `[0.0]`). -/
noncomputable def linspace01 (k : ℕ) : List ℝ :=
  if k ≤ 1 then List.replicate k 0
  else (List.range k).map (fun i => (i : ℝ) / ((k : ℝ) - 1))

/-- `np.exp(np.linspace(0, 1, k))`. -/
noncomputable def expWeights (k : ℕ) : List ℝ :=
  (linspace01 k).map Real.exp

/-- `np.average(ds, weights=ws) = Σ wᵢ dᵢ / Σ wᵢ`. -/
noncomputable def npAverage (ds : List ℚ) (ws : List ℝ) : ℝ :=
  ((ws.zip ds).map (fun p => p.1 * (p.2 : ℝ))).sum / ws.sum

/-- The final averaging step of `_calculate_weighted_trend`:
`weights = exp(linspace(0,1,k)); weights = weights / weights.sum();
return np.average(diffs, weights=weights)`. -/
noncomputable def weightedAvgExp (ds : List ℚ) : ℝ :=
  let w := expWeights ds.length
  npAverage ds (w.map (fun x => x / w.sum))

/-- `_calculate_weighted_trend`: either an early `return 0.0`, or the
exponentially recency-weighted average of consecutive differences. -/
noncomputable def calculateWeightedTrend (cfg : EstimationConfig) (col : String)
    (g : List Row) : ℝ :=
  match trendDiffs cfg col g with
  | none => 0
  | some ds => weightedAvgExp ds

/-- Python `round(q)`: round half to even (banker's rounding), on `ℚ`. -/
def roundHEQ (q : ℚ) : ℤ :=
  if Int.fract q < 1 / 2 then ⌊q⌋
  else if 1 / 2 < Int.fract q then ⌊q⌋ + 1
  else if ⌊q⌋ % 2 = 0 then ⌊q⌋ else ⌊q⌋ + 1

/-- Python `round(x)`: round half to even, on `ℝ`. -/
noncomputable def roundHE (x : ℝ) : ℤ :=
  if Int.fract x < 1 / 2 then ⌊x⌋
  else if 1 / 2 < Int.fract x then ⌊x⌋ + 1
  else if ⌊x⌋ % 2 = 0 then ⌊x⌋ else ⌊x⌋ + 1

/-- Python `round(x, p)` for `p` decimal places. -/
noncomputable def roundTo (p : ℕ) (x : ℝ) : ℚ :=
  (roundHE (x * 10 ^ p) : ℚ) / 10 ^ p

/-- Computable version of `roundTo` on `ℚ` (used to evaluate witnesses). -/
def roundToQ (p : ℕ) (q : ℚ) : ℚ :=
  (roundHEQ (q * 10 ^ p) : ℚ) / 10 ^ p

/-- Count the factors of ten of `n`, up to the `fuel` cap. -/
def tzCount : ℕ → ℤ → ℕ
  | 0, _ => 0
  | fuel + 1, n => if n % 10 = 0 then tzCount fuel (n / 10) + 1 else 0

/-- Decimal places of one value in `_preserve_precision`: the number of
digits after the point of `f"{val:.10f}"` once trailing zeros are
stripped, i.e. ten minus the trailing zeros of `val` rounded to a
ten-decimal fixed-point integer.  A whole number yields `0`. -/
def decimalsOf (q : ℚ) : ℕ :=
  10 - tzCount 10 (roundHEQ (q * 10 ^ 10))

/-- `_preserve_precision`: maximal decimal count of the column's
historical non-missing values, capped at 6; `3` for an empty column;
`0` for a column outside `numeric_columns`. -/
def preservePrecision (df : Table) (col : String) : ℕ :=
  if col ∉ df.numericCols then 0
  else if df.rows.filterMap (fun r => r.val col) = [] then 3
  else min (((df.rows.filterMap (fun r => r.val col)).map decimalsOf).foldr max 0) 6

/-- `_apply_constraints`.  The `np.isnan` guard of the source never fires
here: the orchestrator only calls this on a present base value plus a real
trend.  `np.clip(v, lo, hi)` is `min hi (max lo v)`. -/
noncomputable def applyConstraints (cfg : EstimationConfig) (col : String)
    (value : ℝ) : ℝ :=
  if col ∈ CARBON_INTENSITY_COLUMNS then max (cfg.min_carbon_intensity : ℝ) value
  else if col ∈ CFE_COLUMNS then min (cfg.max_cfe : ℝ) (max (cfg.min_cfe : ℝ) value)
  else if col = "power-usage-effectiveness" then max (cfg.min_pue : ℝ) value
  else if col = "water-usage-effectiveness" then max 0 value
  else value

/-- An output cell: a numeric value, the explicit string sentinel `"NA"`
appended by the orchestrator, or a blank (never-populated, `NaN`) cell.
The rounded values emitted by the code are always rational. -/
inductive Cell where
  | num (v : ℚ)
  | na
  | blank
deriving DecidableEq

/-- `(cloud-provider, cloud-region)`, the groupby key. -/
def keyOf (r : Row) : String × String := (r.provider, r.region)

/-- `self.df[['year','cloud-provider','cloud-region',column]].dropna()`:
the year is always an integer and provider/region are strings here, so
only the metric value can be missing. -/
def historicalRows (df : Table) (col : String) : List Row :=
  df.rows.filter (fun r => (r.val col).isSome)

/-- The group of `historical_data.groupby(['cloud-provider','cloud-region'])`
for one key; the key is in `trends[column]` iff this group is nonempty. -/
def groupOf (df : Table) (col : String) (k : String × String) : List Row :=
  (historicalRows df col).filter (fun r => keyOf r == k)

/-- `max_year = self.df['year'].max()` (the default only pads the empty
table, which fails before the value is ever used). -/
def baseYear (df : Table) : ℤ :=
  ((df.rows.map Row.year).maximum).getD 0

/-- `most_recent_data = self.df[self.df['year'] == max_year]`. -/
def mostRecent (df : Table) : List Row :=
  df.rows.filter (fun r => r.year = baseYear df)

/-- The two rounding modes of the inner loop: `round(v, precision)` when
`precision > 0`, else `int(round(v))`. -/
noncomputable def emitNum (p : ℕ) (est : ℝ) : Cell :=
  if 0 < p then Cell.num (roundTo p est) else Cell.num ((roundHE est : ℚ))

/-- One cell of the forecast for `years_ahead = year - max_year`:
`if key in trends[column]` (iff the entity's group is nonempty) and the
base value is present, extrapolate, constrain and round; with a trend but
no base value emit `"NA"`; with no trend entry carry the base value
forward unchanged, or emit `"NA"` when it too is absent. -/
noncomputable def cellValue (df : Table) (cfg : EstimationConfig) (col : String)
    (r : Row) (years_ahead : ℤ) : Cell :=
  if groupOf df col (keyOf r) = [] then
    match r.val col with
    | some v => Cell.num v
    | none => Cell.na
  else
    match r.val col with
    | some v =>
        emitNum (preservePrecision df col)
          (applyConstraints cfg col
            ((v : ℝ) + calculateWeightedTrend cfg col (groupOf df col (keyOf r)) * (years_ahead : ℝ)))
    | none => Cell.na

/-- One output row: the identifiers plus one cell per numeric column. -/
structure ORow where
  provider : String
  region : String
  year : ℤ
  cells : List (String × Cell)
deriving DecidableEq

/-- `year_estimate` for one target year: a copy of each base-year row with
the year replaced and every numeric column recomputed. -/
noncomputable def batchFor (df : Table) (cfg : EstimationConfig) (Y : ℤ) :
    List ORow :=
  (mostRecent df).map (fun r =>
    ⟨r.provider, r.region, Y,
     df.numericCols.map (fun col => (col, cellValue df cfg col r (Y - baseYear df)))⟩)

/-- The sort key of the output contract: year descending, then provider
and region ascending, lexicographically. -/
def outKey (a : ORow) : ℤ ×ₗ (String ×ₗ String) :=
  toLex (-a.year, toLex (a.provider, a.region))

/-- The output ordering relation used by
`final_df.sort_values(['year','cloud-provider','cloud-region'], ascending=[False,True,True])`. -/
def rowLE (a b : ORow) : Prop := outKey a ≤ outKey b

/-- Strict version of `rowLE`. -/
def rowLT (a b : ORow) : Prop := outKey a < outKey b

instance decRowLE : DecidableRel rowLE :=
  fun a b => inferInstanceAs (Decidable (outKey a ≤ outKey b))

instance instTotalRowLE : IsTotal ORow rowLE :=
  ⟨fun a b => le_total (outKey a) (outKey b)⟩

instance instTransRowLE : IsTrans ORow rowLE :=
  ⟨fun _ _ _ h h2 => le_trans h h2⟩

instance instAntisymmRowLT : IsAntisymm ORow rowLT :=
  ⟨fun _ _ h h2 => ((lt_asymm h) h2).elim⟩

/-- The final multi-key sort (pandas lexsort is stable; we model it with
the stable insertion sort). -/
def sortOutput (l : List ORow) : List ORow := l.insertionSort rowLE

/-- `estimated_years = list(range(max_year + 1, max_year + num_years + 1))`. -/
def yearsFor (df : Table) (n : ℤ) : List ℤ :=
  (List.range n.toNat).map (fun (i : ℕ) => baseYear df + 1 + (i : ℤ))

/-- The concatenated, sorted output of a successful run. -/
noncomputable def outputTable (df : Table) (cfg : EstimationConfig) (n : ℤ) :
    List ORow :=
  sortOutput ((yearsFor df n).map (batchFor df cfg)).flatten

/-- `self.estimation_metadata` (dictionary of the source, as a record). -/
structure Metadata where
  estimation_date : ℤ
  base_year : ℤ
  estimated_years : List ℤ
  num_regions : ℕ
  methodology : String
  outlier_threshold : ℚ
  min_data_points : ℕ
deriving DecidableEq

/-- The metadata of a run whose wall clock reads `now`. -/
def metadataOf (df : Table) (cfg : EstimationConfig) (n : ℤ) (now : ℤ) :
    Metadata :=
  ⟨now, baseYear df, yearsFor df n, (mostRecent df).length,
   "weighted_trend_extrapolation", cfg.outlier_threshold, cfg.min_data_points⟩

/-- The typed failures of `estimate_future_years` (both are `ValueError`s
in Python; the spec names them `InvalidParameterError` and
`InsufficientDataError`). -/
inductive EstError where
  | invalidParameter
  | insufficientData
deriving DecidableEq

/-- `estimate_future_years(num_years)` on a loaded table, with the wall
clock passed explicitly as `now` (`datetime.now()` is read only for an
advisory staleness warning and for `estimation_date`). -/
noncomputable def estimateFutureYears (df : Table) (cfg : EstimationConfig)
    (num_years : ℤ) (now : ℤ) : Except EstError (List ORow × Metadata) :=
  if num_years < 1 ∨ cfg.max_estimate_years < num_years then
    Except.error EstError.invalidParameter
  else if mostRecent df = [] then
    Except.error EstError.insufficientData
  else
    Except.ok (outputTable df cfg num_years, metadataOf df cfg num_years now)

/-! Statistics of a series, real-valued, for relating the division-free
outlier test to the z-score form of the source and of the spec. -/

/-- `series.std()`: pandas sample standard deviation, `ddof = 1`. -/
noncomputable def sampleStd (vs : List ℚ) : ℝ :=
  Real.sqrt ((sumSqDev vs : ℝ) / ((vs.length : ℝ) - 1))

/-- Population standard deviation (divisor `n`), as the spec words it. -/
noncomputable def populationStd (vs : List ℚ) : ℝ :=
  Real.sqrt ((sumSqDev vs : ℝ) / (vs.length : ℝ))

/-- The outlier rule exactly as claim C5 words it: with at least 3
non-missing values, a point is flagged when its absolute z-score from the
population mean and POPULATION standard deviation exceeds the threshold.
This is the claim's reading, kept separate to compare with the code's
`detectOutliers`. -/
def specPopulationFlagged (t : ℚ) (xs : List (Option ℚ)) (i : ℕ) : Prop :=
  3 ≤ (obsValues xs).length ∧
  ∃ x, xs.getD i none = some x ∧
    (t : ℝ) * populationStd (obsValues xs) <
      |(x : ℝ) - (listMeanQ (obsValues xs) : ℝ)|

/-- `b` is exactly representable with `p` decimal places
(`b * 10^p` is an integer). -/
def Representable (b : ℚ) (p : ℕ) : Prop := (b * 10 ^ p).den = 1

/-- The constraint invariant of claim C1 for one output cell, with the
constraint class decided by exact column-name matching. -/
def cellWithinBounds (cfg : EstimationConfig) (col : String) : Cell → Prop
  | Cell.num v =>
      (col ∈ CARBON_INTENSITY_COLUMNS → cfg.min_carbon_intensity ≤ v) ∧
      (col ∈ CFE_COLUMNS → cfg.min_cfe ≤ v ∧ v ≤ cfg.max_cfe) ∧
      (col = "power-usage-effectiveness" → cfg.min_pue ≤ v) ∧
      (col = "water-usage-effectiveness" → 0 ≤ v)
  | Cell.na => True
  | Cell.blank => True

/-- The constraint invariant over a whole output table. -/
def tableWithinBounds (cfg : EstimationConfig) (tbl : List ORow) : Prop :=
  ∀ row ∈ tbl, ∀ pc ∈ row.cells, cellWithinBounds cfg pc.1 pc.2

/-- Every configured bound is representable at the inferred precision of
each column of its constraint class (true of the default configuration,
whose bounds are the integers 0 and 1). -/
def boundsRepresentable (df : Table) (cfg : EstimationConfig) : Prop :=
  cfg.min_cfe ≤ cfg.max_cfe ∧
  Representable cfg.min_pue (preservePrecision df "power-usage-effectiveness") ∧
  (∀ col ∈ CFE_COLUMNS,
    Representable cfg.min_cfe (preservePrecision df col) ∧
    Representable cfg.max_cfe (preservePrecision df col)) ∧
  (∀ col ∈ CARBON_INTENSITY_COLUMNS,
    Representable cfg.min_carbon_intensity (preservePrecision df col))

/-- Distinctness of the base-year entity keys: the data model admits at
most one row per (provider, region, year). -/
def keysNodup (df : Table) : Prop := ((mostRecent df).map keyOf).Nodup

/-- The strict output ordering of the sort contract: year descending,
then provider ascending, then region ascending. -/
def outputStrictBefore (a b : ORow) : Prop :=
  b.year < a.year ∨
    (b.year = a.year ∧
      (a.provider < b.provider ∨ (a.provider = b.provider ∧ a.region < b.region)))

/-- The run metadata with `estimation_date` blanked, for comparing two
runs started at different wall-clock times. -/
def stripDate (md : Metadata) : Metadata :=
  ⟨0, md.base_year, md.estimated_years, md.num_regions, md.methodology,
   md.outlier_threshold, md.min_data_points⟩

/-! Concrete instances used by counterexamples and witnesses. -/

/-- A single-entity, single-metric base-year row with PUE `1.04`. -/
def rowPue : Row :=
  ⟨"aws", "us-east-1", 2024, [("power-usage-effectiveness", some (26 / 25))]⟩

/-- A one-row table whose PUE history is the single value `1.04`
(inferred precision 2). -/
def tblPue : Table := ⟨["power-usage-effectiveness"], [rowPue]⟩

/-- A configuration with `min_pue = 1.0537` (the CLI flag `--min-pue`
accepts any float); not representable with 2 decimal places. -/
def cfgPue : EstimationConfig := ⟨10537 / 10000, 1, 0, 0, 3, 2, 3⟩

/-- A row whose only metric column is entirely missing. -/
def rowNaCol : Row := ⟨"aws", "us-east-1", 2024, [("total-water-input", none)]⟩

/-- A table with a numeric column (`pandas` types an all-NaN column as
float64, hence numeric) that has no value anywhere. -/
def tblNaCol : Table := ⟨["total-water-input"], [rowNaCol]⟩

/-- The empty table (zero rows). -/
def tblEmpty : Table := ⟨[], []⟩

/-- A single-metric history row used by the trend examples. -/
def trRow (y : ℤ) (v : ℚ) : Row :=
  ⟨"aws", "us-east-1", y, [("power-usage-effectiveness", some v)]⟩

/-- History 1, 2 over consecutive years: trend 1. -/
def c4orig : List Row := [trRow 2020 1, trRow 2021 2]

/-- An extreme later observation, far beyond 3 standard deviations of the
rest. -/
def c4ext : Row := trRow 2022 1000

/-- Ten identical observations; its trend is 0 and its own filter flags
nothing. -/
def c4wOrig : List Row :=
  [trRow 2014 5, trRow 2015 5, trRow 2016 5, trRow 2017 5, trRow 2018 5,
   trRow 2019 5, trRow 2020 5, trRow 2021 5, trRow 2022 5, trRow 2023 5]

/-- An eleventh, extreme observation whose z-score in the augmented series
is `10/sqrt 11 > 3`, so the filter does flag it. -/
def c4wExt : Row := trRow 2024 16

/-- Series of eleven values: nine `0`s, one `25`, one `141`.  The `141`
has population z-score `3.11 > 3` but sample z-score `2.97 ≤ 3`. -/
def c5xs : List (Option ℚ) :=
  [some 0, some 0, some 0, some 0, some 0, some 0, some 0, some 0, some 0,
   some 25, some 141]

/-! Basic facts about banker's rounding. -/

theorem roundHE_ratCast (q : ℚ) : roundHE (q : ℝ) = roundHEQ q := by
  have h1 : Int.fract ((q : ℝ)) = ((Int.fract q : ℚ) : ℝ) := (Rat.cast_fract q).symm
  have h2 : ⌊(q : ℝ)⌋ = ⌊q⌋ := Rat.floor_cast q
  have c1 : ((Int.fract q : ℚ) : ℝ) < 1 / 2 ↔ Int.fract q < 1 / 2 := by
    rw [show ((1 : ℝ) / 2) = (((1 / 2 : ℚ)) : ℝ) by norm_num, Rat.cast_lt]
  have c2 : (1 / 2 : ℝ) < ((Int.fract q : ℚ) : ℝ) ↔ 1 / 2 < Int.fract q := by
    rw [show ((1 : ℝ) / 2) = (((1 / 2 : ℚ)) : ℝ) by norm_num, Rat.cast_lt]
  unfold roundHE roundHEQ
  rw [h1, h2]
  by_cases hlt : Int.fract q < 1 / 2
  · rw [if_pos (c1.mpr hlt), if_pos hlt]
  · rw [if_neg (fun h => hlt (c1.mp h)), if_neg hlt]
    by_cases hgt : 1 / 2 < Int.fract q
    · rw [if_pos (c2.mpr hgt), if_pos hgt]
    · rw [if_neg (fun h => hgt (c2.mp h)), if_neg hgt]

theorem roundTo_ratCast (p : ℕ) (q : ℚ) : roundTo p (q : ℝ) = roundToQ p q := by
  unfold roundTo roundToQ
  rw [show ((q : ℝ) * 10 ^ p) = ((q * 10 ^ p : ℚ) : ℝ) by push_cast; ring,
    roundHE_ratCast]

theorem floor_le_roundHE (x : ℝ) : ⌊x⌋ ≤ roundHE x := by
  unfold roundHE
  split
  · exact le_refl _
  · split
    · exact Int.le.intro 1 rfl
    · split
      · exact le_refl _
      · exact Int.le.intro 1 rfl

theorem roundHE_le_ceil (x : ℝ) : roundHE x ≤ ⌈x⌉ := by
  have hfc : ⌊x⌋ ≤ ⌈x⌉ := Int.floor_le_ceil x
  have hsucc : 0 < Int.fract x → ⌊x⌋ + 1 ≤ ⌈x⌉ := by
    intro hfr
    have hxf : (⌊x⌋ : ℝ) + Int.fract x = x := Int.floor_add_fract x
    have h1 : (⌊x⌋ : ℝ) < x := by linarith
    have h2 : x ≤ (⌈x⌉ : ℝ) := Int.le_ceil x
    have : (⌊x⌋ : ℝ) < (⌈x⌉ : ℝ) := lt_of_lt_of_le h1 h2
    exact Int.add_one_le_iff.mpr (by exact_mod_cast this)
  unfold roundHE
  split
  · exact hfc
  · rename_i hge
    split
    · rename_i hgt
      exact hsucc (by linarith)
    · rename_i hle
      have hhalf : Int.fract x = 1 / 2 := le_antisymm (not_lt.mp hle) (not_lt.mp hge)
      split
      · exact hfc
      · exact hsucc (by rw [hhalf]; norm_num)

theorem le_roundTo (p : ℕ) (b : ℚ) (x : ℝ) (hb : Representable b p)
    (hx : (b : ℝ) ≤ x) : b ≤ roundTo p x := by
  have hk : ((b * 10 ^ p).num : ℚ) = b * 10 ^ p := Rat.coe_int_num_of_den_eq_one hb
  have h10 : (0 : ℝ) < 10 ^ p := by positivity
  have hbx : (((b * 10 ^ p).num : ℝ)) ≤ x * 10 ^ p := by
    have hmul : (b : ℝ) * 10 ^ p ≤ x * 10 ^ p :=
      mul_le_mul_of_nonneg_right hx (le_of_lt h10)
    calc (((b * 10 ^ p).num : ℝ)) = (((b * 10 ^ p : ℚ)) : ℝ) := by exact_mod_cast hk
      _ = (b : ℝ) * 10 ^ p := by push_cast; ring
      _ ≤ x * 10 ^ p := hmul
  have hr : (b * 10 ^ p).num ≤ roundHE (x * 10 ^ p) :=
    le_trans (Int.le_floor.mpr hbx) (floor_le_roundHE _)
  unfold roundTo
  rw [le_div_iff₀ (by positivity : (0 : ℚ) < 10 ^ p)]
  calc b * 10 ^ p = ((b * 10 ^ p).num : ℚ) := hk.symm
    _ ≤ (roundHE (x * 10 ^ p) : ℚ) := by exact_mod_cast hr

theorem roundTo_le (p : ℕ) (b : ℚ) (x : ℝ) (hb : Representable b p)
    (hx : x ≤ (b : ℝ)) : roundTo p x ≤ b := by
  have hk : ((b * 10 ^ p).num : ℚ) = b * 10 ^ p := Rat.coe_int_num_of_den_eq_one hb
  have h10 : (0 : ℝ) < 10 ^ p := by positivity
  have hbx : x * 10 ^ p ≤ (((b * 10 ^ p).num : ℝ)) := by
    have hmul : x * 10 ^ p ≤ (b : ℝ) * 10 ^ p :=
      mul_le_mul_of_nonneg_right hx (le_of_lt h10)
    calc x * 10 ^ p ≤ (b : ℝ) * 10 ^ p := hmul
      _ = (((b * 10 ^ p : ℚ)) : ℝ) := by push_cast; ring
      _ = (((b * 10 ^ p).num : ℝ)) := by exact_mod_cast hk.symm
  have hr : roundHE (x * 10 ^ p) ≤ (b * 10 ^ p).num :=
    le_trans (roundHE_le_ceil _) (Int.ceil_le.mpr hbx)
  unfold roundTo
  rw [div_le_iff₀ (by positivity : (0 : ℚ) < 10 ^ p)]
  calc (roundHE (x * 10 ^ p) : ℚ) ≤ ((b * 10 ^ p).num : ℚ) := by exact_mod_cast hr
    _ = b * 10 ^ p := hk

theorem emitNum_eq (p : ℕ) (est : ℝ) : emitNum p est = Cell.num (roundTo p est) := by
  unfold emitNum
  split
  · rfl
  · rename_i hp
    have h0 : p = 0 := Nat.eq_zero_of_not_pos hp
    subst h0
    unfold roundTo
    norm_num

/-! The outlier filter and the z-score form. -/

theorem detectOutliers_length (t : ℚ) (xs : List (Option ℚ)) :
    (detectOutliers t xs).length = xs.length := by
  unfold detectOutliers
  split <;> simp

theorem detectOutliers_getD (t : ℚ) (xs : List (Option ℚ)) (i : ℕ) (x : ℚ)
    (hx : xs.getD i none = some x) :
    (detectOutliers t xs).getD i false =
      (if (obsValues xs).length < 3 then false
       else decide (0 < sumSqDev (obsValues xs) ∧
         (t < 0 ∨ t ^ 2 * sumSqDev (obsValues xs) <
           (x - listMeanQ (obsValues xs)) ^ 2 * (((obsValues xs).length : ℚ) - 1)))) := by
  have hx2 : xs[i]? = some (some x) := by
    rcases h : xs[i]? with _ | ox
    · rw [List.getD_eq_getElem?_getD, h] at hx
      exact absurd hx (by simp)
    · rw [List.getD_eq_getElem?_getD, h] at hx
      simp only [Option.getD_some] at hx
      rw [hx]
  unfold detectOutliers
  split
  · rw [List.getD_eq_getElem?_getD, List.getElem?_map, hx2]
    rfl
  · rw [List.getD_eq_getElem?_getD, List.getElem?_map, hx2]
    rfl

theorem sumSqDev_nonneg (vs : List ℚ) : 0 ≤ sumSqDev vs := by
  unfold sumSqDev
  apply List.sum_nonneg
  intro a ha
  rcases List.mem_map.mp ha with ⟨x, _, rfl⟩
  positivity

theorem sum_sq_nonpos_all_eq (m : ℚ) :
    ∀ l : List ℚ, (l.map (fun y => (y - m) ^ 2)).sum ≤ 0 → ∀ x ∈ l, x = m := by
  intro l
  induction l with
  | nil => intro _ x hx; exact absurd hx (List.not_mem_nil x)
  | cons a tl ih =>
    intro h x hx
    simp only [List.map_cons, List.sum_cons] at h
    have h1 : 0 ≤ (a - m) ^ 2 := by positivity
    have h2 : 0 ≤ (tl.map (fun y => (y - m) ^ 2)).sum := by
      apply List.sum_nonneg
      intro b hb
      rcases List.mem_map.mp hb with ⟨y, _, rfl⟩
      positivity
    rcases List.mem_cons.mp hx with rfl | hx2
    · have hz : (x - m) ^ 2 = 0 := le_antisymm (by linarith) h1
      have := pow_eq_zero_iff (n := 2) (by norm_num) |>.mp hz
      linarith [sub_eq_zero.mp this]
    · exact ih (by linarith) x hx2

theorem eq_mean_of_sumSqDev_nonpos (vs : List ℚ) (h : sumSqDev vs ≤ 0) :
    ∀ x ∈ vs, x = listMeanQ vs :=
  sum_sq_nonpos_all_eq (listMeanQ vs) vs h

/-- The division-free comparison of `detectOutliers` agrees with the
sample-standard-deviation z-score comparison of the source, for a
non-negative threshold and a member of the series. -/
theorem zscore_equiv (t : ℚ) (ht : 0 ≤ t) (vs : List ℚ) (x : ℚ)
    (hx : x ∈ vs) (hn : 3 ≤ vs.length) :
    (0 < sumSqDev vs ∧
      (t < 0 ∨ t ^ 2 * sumSqDev vs <
        (x - listMeanQ vs) ^ 2 * ((vs.length : ℚ) - 1))) ↔
    (t : ℝ) * sampleStd vs < |(x : ℝ) - (listMeanQ vs : ℝ)| := by
  have hnotlt : ¬(t < 0) := not_lt.mpr ht
  have hn1 : (0 : ℝ) < (vs.length : ℝ) - 1 := by
    have : (3 : ℝ) ≤ (vs.length : ℝ) := by exact_mod_cast hn
    linarith
  have hSnn : (0 : ℝ) ≤ (sumSqDev vs : ℝ) := by
    exact_mod_cast sumSqDev_nonneg vs
  have hσnn : 0 ≤ sampleStd vs := Real.sqrt_nonneg _
  have htr : (0 : ℝ) ≤ (t : ℝ) := by exact_mod_cast ht
  have hσsq : sampleStd vs ^ 2 = (sumSqDev vs : ℝ) / ((vs.length : ℝ) - 1) :=
    Real.sq_sqrt (div_nonneg hSnn (le_of_lt hn1))
  have hcastiff : t ^ 2 * sumSqDev vs <
        (x - listMeanQ vs) ^ 2 * ((vs.length : ℚ) - 1) ↔
      (t : ℝ) ^ 2 * (sumSqDev vs : ℝ) <
        ((x : ℝ) - (listMeanQ vs : ℝ)) ^ 2 * ((vs.length : ℝ) - 1) := by
    rw [show ((t : ℝ) ^ 2 * (sumSqDev vs : ℝ)) =
          ((t ^ 2 * sumSqDev vs : ℚ) : ℝ) by push_cast; ring,
        show (((x : ℝ) - (listMeanQ vs : ℝ)) ^ 2 * ((vs.length : ℝ) - 1)) =
          (((x - listMeanQ vs) ^ 2 * ((vs.length : ℚ) - 1) : ℚ) : ℝ) by
          push_cast; ring,
        Rat.cast_lt]
  constructor
  · rintro ⟨hS, h | h⟩
    · exact absurd h hnotlt
    · have hR := hcastiff.mp h
      have hsq : ((t : ℝ) * sampleStd vs) ^ 2 <
          |(x : ℝ) - (listMeanQ vs : ℝ)| ^ 2 := by
        rw [mul_pow, hσsq, sq_abs, ← mul_div_assoc, div_lt_iff₀ hn1]
        exact hR
      exact lt_of_pow_lt_pow_left₀ 2 (abs_nonneg _) hsq
  · intro h
    have hS : 0 < sumSqDev vs := by
      rcases lt_or_le 0 (sumSqDev vs) with hpos | hle
      · exact hpos
      · exfalso
        have hxm : x = listMeanQ vs := eq_mean_of_sumSqDev_nonpos vs hle x hx
        rw [hxm] at h
        simp only [sub_self, abs_zero] at h
        exact absurd h (not_lt.mpr (mul_nonneg htr hσnn))
    refine ⟨hS, Or.inr ?_⟩
    have hsq : ((t : ℝ) * sampleStd vs) ^ 2 <
        |(x : ℝ) - (listMeanQ vs : ℝ)| ^ 2 :=
      pow_lt_pow_left₀ h (mul_nonneg htr hσnn) (by norm_num)
    rw [mul_pow, hσsq, sq_abs, ← mul_div_assoc, div_lt_iff₀ hn1] at hsq
    exact hcastiff.mpr hsq

theorem mem_obsValues_of_getD (xs : List (Option ℚ)) (i : ℕ) (x : ℚ)
    (hx : xs.getD i none = some x) : x ∈ obsValues xs := by
  have hx2 : xs[i]? = some (some x) := by
    rcases h : xs[i]? with _ | ox
    · rw [List.getD_eq_getElem?_getD, h] at hx
      exact absurd hx (by simp)
    · rw [List.getD_eq_getElem?_getD, h] at hx
      simp only [Option.getD_some] at hx
      rw [hx]
  exact List.mem_filterMap.mpr ⟨some x, List.getElem?_mem hx2, rfl⟩

/-! The weighted trend. -/

theorem calculateWeightedTrend_of_short (cfg : EstimationConfig) (col : String)
    (g : List Row) (h : g.length < cfg.min_data_points) :
    calculateWeightedTrend cfg col g = 0 := by
  unfold calculateWeightedTrend trendDiffs
  rw [if_pos h]

theorem weightedAvgExp_single (d : ℚ) : weightedAvgExp [d] = (d : ℝ) := by
  unfold weightedAvgExp npAverage expWeights linspace01
  norm_num [Real.exp_zero]

theorem weightedAvgExp_pair (a b : ℚ) :
    weightedAvgExp [a, b] =
      ((a : ℝ) + (b : ℝ) * Real.exp 1) / (1 + Real.exp 1) := by
  have hep : (0 : ℝ) < Real.exp 1 := Real.exp_pos 1
  have hW : (0 : ℝ) < 1 + Real.exp 1 := by linarith
  unfold weightedAvgExp npAverage expWeights linspace01
  norm_num [List.range_succ, Real.exp_zero]
  field_simp
  ring

theorem zip_replicate_false_clean (l : List Row) :
    ((l.zip (List.replicate l.length false)).filter (fun p => !p.2)).map
      (fun p => p.1) = l := by
  induction l with
  | nil => rfl
  | cons a tl ih =>
    simp only [List.length_cons, List.replicate_succ, List.zip_cons_cons,
      List.filter_cons, Bool.not_false, if_pos, List.map_cons]
    simp [ih]

theorem cleanGroup_of_no_flags (t : ℚ) (col : String) (g2 : List Row)
    (h : detectOutliers t (g2.map (fun r => r.val col)) =
      List.replicate g2.length false) :
    cleanGroup t col g2 = g2 := by
  unfold cleanGroup
  rw [h]
  exact zip_replicate_false_clean g2

theorem cleanGroup_drop_last (t : ℚ) (col : String) (g2 : List Row) (p : Row)
    (h : detectOutliers t ((g2 ++ [p]).map (fun r => r.val col)) =
      List.replicate g2.length false ++ [true]) :
    cleanGroup t col (g2 ++ [p]) = g2 := by
  unfold cleanGroup
  rw [h, List.zip_append (by simp), List.filter_append, List.map_append,
    zip_replicate_false_clean g2]
  simp

/-- Core of the outlier-suppression property: when the inserted point
sorts last among the non-missing rows, the filter flags exactly it in the
augmented series and nothing in the original, and enough points remain,
the diffs reaching the averaging step are unchanged. -/
theorem trendDiffs_suppress (cfg : EstimationConfig) (col : String)
    (g : List Row) (p : Row)
    (hsort : sortedNonMissing col (g ++ [p]) = sortedNonMissing col g ++ [p])
    (hflags0 : detectOutliers cfg.outlier_threshold
        ((sortedNonMissing col g).map (fun r => r.val col)) =
      List.replicate (sortedNonMissing col g).length false)
    (hflags1 : detectOutliers cfg.outlier_threshold
        ((sortedNonMissing col g ++ [p]).map (fun r => r.val col)) =
      List.replicate (sortedNonMissing col g).length false ++ [true])
    (hlen : cfg.min_data_points ≤ (sortedNonMissing col g).length) :
    trendDiffs cfg col (g ++ [p]) = trendDiffs cfg col g := by
  have hg2len : (sortedNonMissing col g).length ≤ g.length := by
    calc (sortedNonMissing col g).length ≤ (sortByYear g).length :=
          List.length_filter_le _ _
      _ = g.length := List.length_insertionSort _ _
  have hclean0 : cleanGroup cfg.outlier_threshold col (sortedNonMissing col g) =
      sortedNonMissing col g := cleanGroup_of_no_flags _ _ _ hflags0
  have hclean1 : cleanGroup cfg.outlier_threshold col (sortedNonMissing col g ++ [p]) =
      sortedNonMissing col g := cleanGroup_drop_last _ _ _ _ hflags1
  have hds : cleanDiffs cfg col (g ++ [p]) = cleanDiffs cfg col g := by
    unfold cleanDiffs
    rw [hsort, hclean1, hclean0]
  have hmin : cfg.min_data_points ≤ g.length := le_trans hlen hg2len
  have hc1 : ¬((g ++ [p]).length < cfg.min_data_points) := by
    simp only [List.length_append, List.length_cons, List.length_nil]
    omega
  have hc2 : ¬(g.length < cfg.min_data_points) := by omega
  have hc3 : ¬((sortedNonMissing col g ++ [p]).length < cfg.min_data_points) := by
    simp only [List.length_append, List.length_cons, List.length_nil]
    omega
  have hc4 : ¬((sortedNonMissing col g).length < cfg.min_data_points) := by omega
  unfold trendDiffs
  rw [hds, hsort, hclean1, hclean0]
  rw [if_neg hc1, if_neg hc3, if_neg hc4, if_neg hc2, if_neg hc4]

/-! Cells of the orchestrator. -/

theorem mostRecent_subset (df : Table) (r : Row) (hr : r ∈ mostRecent df) :
    r ∈ df.rows :=
  (List.mem_filter.mp hr).1

theorem mem_groupOf_self (df : Table) (col : String) (r : Row) (v : ℚ)
    (hr : r ∈ df.rows) (hv : r.val col = some v) :
    r ∈ groupOf df col (keyOf r) := by
  unfold groupOf historicalRows
  refine List.mem_filter.mpr ⟨List.mem_filter.mpr ⟨hr, ?_⟩, ?_⟩
  · rw [hv]
    rfl
  · simp

theorem cellValue_none (df : Table) (cfg : EstimationConfig) (col : String)
    (r : Row) (ya : ℤ) (hv : r.val col = none) :
    cellValue df cfg col r ya = Cell.na := by
  unfold cellValue
  rw [hv]
  split <;> rfl

theorem cellValue_some (df : Table) (cfg : EstimationConfig) (col : String)
    (r : Row) (ya : ℤ) (v : ℚ) (hr : r ∈ df.rows) (hv : r.val col = some v) :
    cellValue df cfg col r ya =
      emitNum (preservePrecision df col)
        (applyConstraints cfg col
          ((v : ℝ) +
            calculateWeightedTrend cfg col (groupOf df col (keyOf r)) * (ya : ℝ))) := by
  have hne : groupOf df col (keyOf r) ≠ [] :=
    List.ne_nil_of_mem (mem_groupOf_self df col r v hr hv)
  unfold cellValue
  rw [if_neg hne, hv]

theorem mem_outputTable (df : Table) (cfg : EstimationConfig) (n : ℤ)
    (row : ORow) :
    row ∈ outputTable df cfg n ↔
      ∃ Y ∈ yearsFor df n, row ∈ batchFor df cfg Y := by
  unfold outputTable sortOutput
  rw [List.mem_insertionSort, List.mem_flatten]
  constructor
  · rintro ⟨l, hl, hrow⟩
    rcases List.mem_map.mp hl with ⟨Y, hY, rfl⟩
    exact ⟨Y, hY, hrow⟩
  · rintro ⟨Y, hY, hrow⟩
    exact ⟨batchFor df cfg Y, List.mem_map.mpr ⟨Y, hY, rfl⟩, hrow⟩

/-! Constraint bounds. -/

theorem cfe_not_carbon (col : String) (h : col ∈ CFE_COLUMNS) :
    col ∉ CARBON_INTENSITY_COLUMNS := by
  simp only [CFE_COLUMNS, List.mem_cons, List.not_mem_nil, or_false] at h
  rcases h with rfl | rfl <;> decide

theorem applyConstraints_carbon (cfg : EstimationConfig) (col : String) (v : ℝ)
    (h : col ∈ CARBON_INTENSITY_COLUMNS) :
    (cfg.min_carbon_intensity : ℝ) ≤ applyConstraints cfg col v := by
  unfold applyConstraints
  rw [if_pos h]
  exact le_max_left _ _

theorem applyConstraints_cfe_lower (cfg : EstimationConfig) (col : String) (v : ℝ)
    (h : col ∈ CFE_COLUMNS) (hle : cfg.min_cfe ≤ cfg.max_cfe) :
    (cfg.min_cfe : ℝ) ≤ applyConstraints cfg col v := by
  unfold applyConstraints
  rw [if_neg (cfe_not_carbon col h), if_pos h]
  exact le_min (by exact_mod_cast hle) (le_max_left _ _)

theorem applyConstraints_cfe_upper (cfg : EstimationConfig) (col : String) (v : ℝ)
    (h : col ∈ CFE_COLUMNS) :
    applyConstraints cfg col v ≤ (cfg.max_cfe : ℝ) := by
  unfold applyConstraints
  rw [if_neg (cfe_not_carbon col h), if_pos h]
  exact min_le_left _ _

theorem applyConstraints_pue (cfg : EstimationConfig) (v : ℝ) :
    (cfg.min_pue : ℝ) ≤ applyConstraints cfg "power-usage-effectiveness" v := by
  unfold applyConstraints
  rw [if_neg (by decide), if_neg (by decide), if_pos rfl]
  exact le_max_left _ _

theorem applyConstraints_wue (cfg : EstimationConfig) (v : ℝ) :
    (0 : ℝ) ≤ applyConstraints cfg "water-usage-effectiveness" v := by
  unfold applyConstraints
  rw [if_neg (by decide), if_neg (by decide), if_neg (by decide), if_pos rfl]
  exact le_max_left _ _

theorem roundTo_bounds (cfg : EstimationConfig) (df : Table) (col : String)
    (est : ℝ) (hrep : boundsRepresentable df cfg) :
    cellWithinBounds cfg col
      (Cell.num (roundTo (preservePrecision df col) (applyConstraints cfg col est))) := by
  obtain ⟨hminmax, hpue, hcfe, hcarbon⟩ := hrep
  refine ⟨?_, ?_, ?_, ?_⟩
  · intro hc
    exact le_roundTo _ _ _ (hcarbon col hc) (applyConstraints_carbon cfg col est hc)
  · intro hc
    exact ⟨le_roundTo _ _ _ (hcfe col hc).1
        (applyConstraints_cfe_lower cfg col est hc hminmax),
      roundTo_le _ _ _ (hcfe col hc).2 (applyConstraints_cfe_upper cfg col est hc)⟩
  · intro hc
    subst hc
    exact le_roundTo _ _ _ hpue (applyConstraints_pue cfg est)
  · intro hc
    subst hc
    have h0 : Representable 0 (preservePrecision df "water-usage-effectiveness") := by
      unfold Representable
      norm_num
    exact le_roundTo _ _ _ h0 (by exact_mod_cast applyConstraints_wue cfg est)

/-! The sort contract. -/

theorem batchFor_map_outKey (df : Table) (cfg : EstimationConfig) (Y : ℤ) :
    (batchFor df cfg Y).map outKey =
      ((mostRecent df).map keyOf).map (fun k => toLex (-Y, toLex k)) := by
  unfold batchFor outKey keyOf
  rw [List.map_map, List.map_map]
  rfl

theorem nodup_batch_keys (df : Table) (cfg : EstimationConfig) (Y : ℤ)
    (h : keysNodup df) : ((batchFor df cfg Y).map outKey).Nodup := by
  rw [batchFor_map_outKey]
  refine List.Nodup.map ?_ h
  intro a b hab
  have h2 : ((-Y, toLex a) : ℤ × (String ×ₗ String)) = (-Y, toLex b) :=
    toLex_inj.mp hab
  have h3 : (toLex a : String ×ₗ String) = toLex b := (Prod.mk.injEq _ _ _ _).mp h2 |>.2
  exact toLex_inj.mp h3

theorem mem_batch_keys_fst (df : Table) (cfg : EstimationConfig) (Y : ℤ)
    (x : ℤ ×ₗ (String ×ₗ String)) (hx : x ∈ (batchFor df cfg Y).map outKey) :
    (ofLex x).1 = -Y := by
  rw [batchFor_map_outKey] at hx
  rcases List.mem_map.mp hx with ⟨k, _, rfl⟩
  rfl

theorem nodup_yearsFor (df : Table) (n : ℤ) : (yearsFor df n).Nodup := by
  unfold yearsFor
  refine List.Nodup.map ?_ (List.nodup_range _)
  intro a b hab
  have h2 : ((a : ℤ)) = ((b : ℤ)) := add_left_cancel hab
  exact_mod_cast h2

theorem nodup_flatten_keys (df : Table) (cfg : EstimationConfig) (n : ℤ)
    (h : keysNodup df) :
    ((((yearsFor df n).map (batchFor df cfg)).flatten).map outKey).Nodup := by
  rw [List.map_flatten, List.map_map]
  rw [List.nodup_flatten]
  constructor
  · intro l hl
    rcases List.mem_map.mp hl with ⟨Y, _, rfl⟩
    exact nodup_batch_keys df cfg Y h
  · have hpw : (yearsFor df n).Pairwise (fun a b => a ≠ b) :=
      List.Nodup.pairwise_of_forall_ne (nodup_yearsFor df n) (fun a _ b _ hab => hab)
    refine (List.pairwise_map.mpr ?_)
    refine hpw.imp ?_
    intro Y Z hYZ x hx hx2
    have h1 := mem_batch_keys_fst df cfg Y x hx
    have h2 := mem_batch_keys_fst df cfg Z x hx2
    rw [h1] at h2
    omega

theorem pairwise_conj {α : Type} {R S : α → α → Prop} :
    ∀ {l : List α}, l.Pairwise R → l.Pairwise S →
      l.Pairwise (fun a b => R a b ∧ S a b) := by
  intro l
  induction l with
  | nil => intro _ _; exact List.Pairwise.nil
  | cons a tl ih =>
    intro h1 h2
    rw [List.pairwise_cons] at h1 h2 ⊢
    exact ⟨fun b hb => ⟨h1.1 b hb, h2.1 b hb⟩, ih h1.2 h2.2⟩

theorem sorted_strict (l : List ORow) (hs : l.Pairwise rowLE)
    (hn : (l.map outKey).Nodup) : l.Pairwise rowLT := by
  have hne : l.Pairwise (fun a b => outKey a ≠ outKey b) :=
    List.pairwise_map.mp hn
  exact (pairwise_conj hs hne).imp (fun h => lt_of_le_of_ne h.1 h.2)

theorem rowLT_iff (a b : ORow) : rowLT a b ↔ outputStrictBefore a b := by
  unfold rowLT outKey outputStrictBefore
  rw [Prod.Lex.lt_iff, Prod.Lex.lt_iff]
  constructor
  · rintro (h | ⟨h1, h2 | ⟨h3, h4⟩⟩)
    · exact Or.inl (by omega)
    · exact Or.inr ⟨by omega, Or.inl h2⟩
    · exact Or.inr ⟨by omega, Or.inr ⟨h3, h4⟩⟩
  · rintro (h | ⟨h1, h2 | ⟨h3, h4⟩⟩)
    · exact Or.inl (by omega)
    · exact Or.inr ⟨by omega, Or.inl h2⟩
    · exact Or.inr ⟨by omega, Or.inr ⟨h3, h4⟩⟩

theorem sorted_outputTable (df : Table) (cfg : EstimationConfig) (n : ℤ) :
    (outputTable df cfg n).Pairwise rowLE :=
  List.sorted_insertionSort rowLE _

theorem nodup_outputTable_keys (df : Table) (cfg : EstimationConfig) (n : ℤ)
    (h : keysNodup df) : ((outputTable df cfg n).map outKey).Nodup := by
  have hperm : List.Perm (outputTable df cfg n)
      ((((yearsFor df n).map (batchFor df cfg))).flatten) :=
    List.perm_insertionSort rowLE _
  exact (hperm.map outKey).nodup_iff.mpr (nodup_flatten_keys df cfg n h)

theorem batchFor_year_mem (df : Table) (cfg : EstimationConfig) (Y : ℤ)
    (row : ORow) (hrow : row ∈ batchFor df cfg Y) : row.year = Y := by
  rcases List.mem_map.mp hrow with ⟨r, _, rfl⟩
  rfl

theorem filter_year_batch_self (df : Table) (cfg : EstimationConfig) (Y : ℤ) :
    (batchFor df cfg Y).filter (fun row => row.year == Y) = batchFor df cfg Y := by
  apply List.filter_eq_self.mpr
  intro row hrow
  simp [batchFor_year_mem df cfg Y row hrow]

theorem filter_year_batch_other (df : Table) (cfg : EstimationConfig) (Y Z : ℤ)
    (hne : Z ≠ Y) :
    (batchFor df cfg Z).filter (fun row => row.year == Y) = [] := by
  rw [List.filter_eq_nil_iff]
  intro row hrow
  simp [batchFor_year_mem df cfg Z row hrow, hne]

theorem filter_year_flatten (df : Table) (cfg : EstimationConfig) (Y : ℤ) :
    ∀ ys : List ℤ, ys.Nodup →
      ((ys.map (batchFor df cfg)).flatten).filter (fun row => row.year == Y) =
        (if Y ∈ ys then batchFor df cfg Y else []) := by
  intro ys
  induction ys with
  | nil => intro _; simp
  | cons z tl ih =>
    intro hnd
    rw [List.map_cons, List.flatten_cons, List.filter_append,
      ih (List.Nodup.of_cons hnd)]
    by_cases hz : Y = z
    · subst hz
      rw [filter_year_batch_self]
      have hnotin : Y ∉ tl := (List.nodup_cons.mp hnd).1
      rw [if_neg hnotin, if_pos (List.mem_cons_self Y tl)]
      simp
    · rw [filter_year_batch_other df cfg Y z (fun hzz => hz hzz.symm)]
      by_cases hmem : Y ∈ tl
      · rw [if_pos hmem, if_pos (List.mem_cons_of_mem z hmem)]
        simp
      · rw [if_neg hmem, if_neg (by
          intro hc
          rcases List.mem_cons.mp hc with hc2 | hc2
          · exact hz hc2
          · exact hmem hc2)]
        simp

/-! Claim theorems. -/

/-- C2: two runs of the estimator on the same table with the same
configuration, started at different wall-clock times, return identical
output tables (row order included) and metadata agreeing on every field
except `estimation_date`; the clock never reaches any computed value. -/
theorem claim_C2_determinism (df : Table) (cfg : EstimationConfig) (n : ℤ)
    (t1 t2 : ℤ) :
    (estimateFutureYears df cfg n t1).map (fun p => (p.1, stripDate p.2)) =
    (estimateFutureYears df cfg n t2).map (fun p => (p.1, stripDate p.2)) := by
  unfold estimateFutureYears
  split
  · rfl
  · split
    · rfl
    · rfl

/-- C9 (amended): the run fails with `InvalidParameterError` exactly when
`num_years` is out of `[1, max_estimate_years]`; it fails with
`InsufficientDataError` exactly when `num_years` is in range AND the table
has no base-year row (the parameter check runs first, so an empty table
with an out-of-range `num_years` reports `InvalidParameterError`); in
every remaining case it succeeds, returning the full output table and
metadata, with per-cell gaps resolved by the sentinel/carry-forward
policy rather than raised. -/
theorem claim_C9_errors (df : Table) (cfg : EstimationConfig) (n now : ℤ) :
    (estimateFutureYears df cfg n now = Except.error EstError.invalidParameter ↔
      (n < 1 ∨ cfg.max_estimate_years < n)) ∧
    (estimateFutureYears df cfg n now = Except.error EstError.insufficientData ↔
      (¬(n < 1 ∨ cfg.max_estimate_years < n) ∧ mostRecent df = [])) ∧
    (¬(n < 1 ∨ cfg.max_estimate_years < n) → mostRecent df ≠ [] →
      estimateFutureYears df cfg n now =
        Except.ok (outputTable df cfg n, metadataOf df cfg n now)) := by
  unfold estimateFutureYears
  by_cases h1 : n < 1 ∨ cfg.max_estimate_years < n
  · rw [if_pos h1]
    exact ⟨by simp [h1], by simp [h1], fun hc _ => absurd h1 hc⟩
  · rw [if_neg h1]
    by_cases h2 : mostRecent df = []
    · rw [if_pos h2]
      exact ⟨by simp [h1], by simp [h1, h2], fun _ hc => absurd h2 hc⟩
    · rw [if_neg h2]
      exact ⟨by simp [h1], by simp [h2], fun _ _ => rfl⟩

/-- C9 counterexample to the claim as stated: on the empty table with
`num_years = 0` the table has zero rows at the base year, yet the run
fails with `InvalidParameterError`, not `InsufficientDataError` — the
claimed "exactly when" for `InsufficientDataError` does not hold. -/
theorem claim_C9_counterexample :
    mostRecent tblEmpty = [] ∧
    estimateFutureYears tblEmpty defaultConfig 0 0 =
      Except.error EstError.invalidParameter ∧
    estimateFutureYears tblEmpty defaultConfig 0 0 ≠
      Except.error EstError.insufficientData := by
  have he : estimateFutureYears tblEmpty defaultConfig 0 0 =
      Except.error EstError.invalidParameter := by
    unfold estimateFutureYears
    rw [if_pos (Or.inl (by norm_num))]
  refine ⟨rfl, he, ?_⟩
  rw [he]
  simp

/-- Witness for C9: a concrete in-range, nonempty run succeeds and the
characterisation applies to it. -/
theorem claim_C9_witness :
    (estimateFutureYears tblPue defaultConfig 1 0 =
        Except.error EstError.invalidParameter ↔
      ((1 : ℤ) < 1 ∨ defaultConfig.max_estimate_years < 1)) ∧
    (estimateFutureYears tblPue defaultConfig 1 0 =
        Except.error EstError.insufficientData ↔
      (¬((1 : ℤ) < 1 ∨ defaultConfig.max_estimate_years < 1) ∧
        mostRecent tblPue = [])) ∧
    (¬((1 : ℤ) < 1 ∨ defaultConfig.max_estimate_years < 1) →
      mostRecent tblPue ≠ [] →
      estimateFutureYears tblPue defaultConfig 1 0 =
        Except.ok (outputTable tblPue defaultConfig 1,
          metadataOf tblPue defaultConfig 1 0)) :=
  claim_C9_errors tblPue defaultConfig 1 0

/-- C7: an entity whose non-missing history for a metric has fewer than
`min_data_points` points (in particular a single point) gets trend 0, so
the cell of every forecast year equals the constraint-applied,
precision-rounded base value, independent of the horizon. -/
theorem claim_C7_trend_zero (df : Table) (cfg : EstimationConfig)
    (col : String) (r : Row) (v : ℚ) (ya : ℤ)
    (hr : r ∈ mostRecent df) (hv : r.val col = some v)
    (hfew : (groupOf df col (keyOf r)).length < cfg.min_data_points) :
    calculateWeightedTrend cfg col (groupOf df col (keyOf r)) = 0 ∧
    cellValue df cfg col r ya =
      emitNum (preservePrecision df col) (applyConstraints cfg col (v : ℝ)) := by
  have h0 := calculateWeightedTrend_of_short cfg col _ hfew
  refine ⟨h0, ?_⟩
  rw [cellValue_some df cfg col r ya v (mostRecent_subset df r hr) hv, h0]
  norm_num

/-- Witness for C7 at a concrete single-observation entity. -/
theorem claim_C7_witness :
    rowPue ∈ mostRecent tblPue ∧
    rowPue.val "power-usage-effectiveness" = some (26 / 25) ∧
    (groupOf tblPue "power-usage-effectiveness" (keyOf rowPue)).length <
      defaultConfig.min_data_points ∧
    (calculateWeightedTrend defaultConfig "power-usage-effectiveness"
        (groupOf tblPue "power-usage-effectiveness" (keyOf rowPue)) = 0 ∧
      cellValue tblPue defaultConfig "power-usage-effectiveness" rowPue 1 =
        emitNum (preservePrecision tblPue "power-usage-effectiveness")
          (applyConstraints defaultConfig "power-usage-effectiveness"
            ((26 / 25 : ℚ) : ℝ))) := by
  have hmr : mostRecent tblPue = [rowPue] := rfl
  have h1 : rowPue ∈ mostRecent tblPue := by
    rw [hmr]
    exact List.mem_cons_self _ _
  have h2 : rowPue.val "power-usage-effectiveness" = some (26 / 25) := rfl
  have h3 : (groupOf tblPue "power-usage-effectiveness" (keyOf rowPue)).length <
      defaultConfig.min_data_points := by decide
  exact ⟨h1, h2, h3,
    claim_C7_trend_zero tblPue defaultConfig "power-usage-effectiveness"
      rowPue (26 / 25) 1 h1 h2 h3⟩

/-- C10: for a base-year row (provider and region are strings in this
model, hence present), a present metric value always has a trend entry —
the group of its own key is nonempty — so the carry-forward branch that
skips constraints and rounding is dead: every emitted cell is either the
constrained rounded extrapolation or the `"NA"` sentinel. -/
theorem claim_C10_no_carry (df : Table) (cfg : EstimationConfig)
    (col : String) (r : Row) (ya : ℤ) (hr : r ∈ mostRecent df) :
    (∀ v, r.val col = some v → groupOf df col (keyOf r) ≠ []) ∧
    cellValue df cfg col r ya =
      (match r.val col with
       | some v =>
           emitNum (preservePrecision df col)
             (applyConstraints cfg col
               ((v : ℝ) +
                 calculateWeightedTrend cfg col (groupOf df col (keyOf r)) * (ya : ℝ)))
       | none => Cell.na) := by
  have hrow := mostRecent_subset df r hr
  constructor
  · intro v hv
    exact List.ne_nil_of_mem (mem_groupOf_self df col r v hrow hv)
  · rcases hv : r.val col with _ | v
    · rw [cellValue_none df cfg col r ya hv]
    · rw [cellValue_some df cfg col r ya v hrow hv]

/-- Witness for C10 at a concrete base-year row. -/
theorem claim_C10_witness :
    rowPue ∈ mostRecent tblPue ∧
    ((∀ v, rowPue.val "power-usage-effectiveness" = some v →
        groupOf tblPue "power-usage-effectiveness" (keyOf rowPue) ≠ []) ∧
      cellValue tblPue defaultConfig "power-usage-effectiveness" rowPue 1 =
        (match rowPue.val "power-usage-effectiveness" with
         | some v =>
             emitNum (preservePrecision tblPue "power-usage-effectiveness")
               (applyConstraints defaultConfig "power-usage-effectiveness"
                 ((v : ℝ) +
                   calculateWeightedTrend defaultConfig "power-usage-effectiveness"
                     (groupOf tblPue "power-usage-effectiveness" (keyOf rowPue)) *
                     ((1 : ℤ) : ℝ)))
         | none => Cell.na)) := by
  have hmr : mostRecent tblPue = [rowPue] := rfl
  have h1 : rowPue ∈ mostRecent tblPue := by
    rw [hmr]
    exact List.mem_cons_self _ _
  exact ⟨h1, claim_C10_no_carry tblPue defaultConfig
    "power-usage-effectiveness" rowPue 1 h1⟩

/-- C8: the output of a run on a table whose base-year entity keys are
distinct (the data model admits one row per entity and year) is strictly
ordered by year descending, then provider ascending, then region
ascending. -/
theorem claim_C8_sort_contract (df : Table) (cfg : EstimationConfig) (n : ℤ)
    (hkeys : keysNodup df) :
    (outputTable df cfg n).Pairwise outputStrictBefore := by
  have hs := sorted_outputTable df cfg n
  have hn := nodup_outputTable_keys df cfg n hkeys
  exact (sorted_strict _ hs hn).imp (fun h => (rowLT_iff _ _).mp h)

/-- Witness for C8 at a concrete table with distinct keys. -/
theorem claim_C8_witness :
    keysNodup tblPue ∧
    (outputTable tblPue defaultConfig 2).Pairwise outputStrictBefore := by
  have h1 : keysNodup tblPue := by
    unfold keysNodup
    decide
  exact ⟨h1, claim_C8_sort_contract tblPue defaultConfig 2 h1⟩

/-- C3: for a valid table (distinct base-year entity keys) and horizons
`1 ≤ n < n2 ≤ max_estimate_years`, the rows a run with horizon `n2`
produces for forecast year `base_year + n` coincide with those of a run
with horizon `n`: every target year is extrapolated independently from
the same base-year snapshot, never chained. -/
theorem claim_C3_horizon_independence (df : Table) (cfg : EstimationConfig)
    (n n2 : ℤ) (h1 : 1 ≤ n) (h2 : n < n2) (h3 : n2 ≤ cfg.max_estimate_years)
    (hkeys : keysNodup df) :
    (outputTable df cfg n2).filter (fun row => row.year == baseYear df + n) =
    (outputTable df cfg n).filter (fun row => row.year == baseYear df + n) := by
  have hYmem : ∀ m : ℤ, n ≤ m → baseYear df + n ∈ yearsFor df m := by
    intro m hm
    unfold yearsFor
    refine List.mem_map.mpr ⟨(n - 1).toNat, List.mem_range.mpr (by omega), by omega⟩
  have hperm : ∀ m : ℤ, n ≤ m →
      List.Perm ((outputTable df cfg m).filter
        (fun row => row.year == baseYear df + n)) (batchFor df cfg (baseYear df + n)) := by
    intro m hm
    have hp : List.Perm (outputTable df cfg m)
        (((yearsFor df m).map (batchFor df cfg)).flatten) :=
      List.perm_insertionSort rowLE _
    have hq := hp.filter (fun row => row.year == baseYear df + n)
    rw [filter_year_flatten df cfg (baseYear df + n) (yearsFor df m)
      (nodup_yearsFor df m), if_pos (hYmem m hm)] at hq
    exact hq
  have hsorted : ∀ m : ℤ,
      ((outputTable df cfg m).filter
        (fun row => row.year == baseYear df + n)).Pairwise rowLE :=
    fun m => (sorted_outputTable df cfg m).filter _
  have hnd : ∀ m : ℤ, n ≤ m →
      (((outputTable df cfg m).filter
        (fun row => row.year == baseYear df + n)).map outKey).Nodup := by
    intro m hm
    exact ((hperm m hm).map outKey).nodup_iff.mpr
      (nodup_batch_keys df cfg (baseYear df + n) hkeys)
  exact List.eq_of_perm_of_sorted
    ((hperm n2 (le_of_lt h2)).trans (hperm n le_rfl).symm)
    (sorted_strict _ (hsorted n2) (hnd n2 (le_of_lt h2)))
    (sorted_strict _ (hsorted n) (hnd n le_rfl))

/-- Witness for C3: forecasting 2 years and 1 year from the same table
agree on the first forecast year. -/
theorem claim_C3_witness :
    (1 : ℤ) ≤ 1 ∧ (1 : ℤ) < 2 ∧ (2 : ℤ) ≤ defaultConfig.max_estimate_years ∧
    keysNodup tblPue ∧
    (outputTable tblPue defaultConfig 2).filter
      (fun row => row.year == baseYear tblPue + 1) =
    (outputTable tblPue defaultConfig 1).filter
      (fun row => row.year == baseYear tblPue + 1) := by
  have hk : keysNodup tblPue := by
    unfold keysNodup
    decide
  exact ⟨le_rfl, by norm_num, by decide, hk,
    claim_C3_horizon_independence tblPue defaultConfig 1 2 le_rfl
      (by norm_num) (by decide) hk⟩

/-- C5 (amended): with fewer than 3 non-missing values the filter flags
nothing; otherwise a present point is flagged exactly when its absolute
z-score from the mean and the SAMPLE standard deviation (pandas `std()`,
`ddof = 1`, divisor `n - 1`) of the non-missing values exceeds the
(non-negative) threshold.  The claim's "population standard deviation"
is what the code does not use. -/
theorem claim_C5_outlier_filter (t : ℚ) (ht : 0 ≤ t) (xs : List (Option ℚ)) :
    ((obsValues xs).length < 3 → detectOutliers t xs = xs.map (fun _ => false)) ∧
    (∀ i x, xs.getD i none = some x →
      ((detectOutliers t xs).getD i false = true ↔
        3 ≤ (obsValues xs).length ∧
        (t : ℝ) * sampleStd (obsValues xs) <
          |(x : ℝ) - (listMeanQ (obsValues xs) : ℝ)|)) := by
  constructor
  · intro hlen
    unfold detectOutliers
    rw [if_pos hlen]
  · intro i x hx
    rw [detectOutliers_getD t xs i x hx]
    by_cases hlen : (obsValues xs).length < 3
    · rw [if_pos hlen]
      simp only [Bool.false_eq_true, false_iff, not_and]
      intro hc
      omega
    · rw [if_neg hlen]
      rw [decide_eq_true_eq]
      rw [zscore_equiv t ht (obsValues xs) x
        (mem_obsValues_of_getD xs i x hx) (by omega)]
      constructor
      · intro h
        exact ⟨by omega, h⟩
      · intro h
        exact h.2

/-- Witness for C5 at a concrete series and the default threshold. -/
theorem claim_C5_witness :
    (0 : ℚ) ≤ 3 ∧
    (((obsValues c5xs).length < 3 →
        detectOutliers 3 c5xs = c5xs.map (fun _ => false)) ∧
      (∀ i x, c5xs.getD i none = some x →
        ((detectOutliers 3 c5xs).getD i false = true ↔
          3 ≤ (obsValues c5xs).length ∧
          ((3 : ℚ) : ℝ) * sampleStd (obsValues c5xs) <
            |(x : ℝ) - (listMeanQ (obsValues c5xs) : ℝ)|))) :=
  ⟨by norm_num, claim_C5_outlier_filter 3 (by norm_num) c5xs⟩

/-- C5 counterexample to the claim as stated: in the series of nine `0`s,
one `25` and one `141`, the `141` has population z-score
`3.11 > 3` (`(141 - mean)² · n > 3² · Σ(x - mean)²`), so the claimed
population-standard-deviation rule flags it, but the code,
using the sample standard deviation (`ddof = 1`), leaves it unflagged
(sample z-score `2.97`). -/
theorem claim_C5_counterexample :
    (detectOutliers 3 c5xs).getD 10 false = false ∧
    specPopulationFlagged 3 c5xs 10 := by
  have hx : c5xs.getD 10 none = some 141 := rfl
  have hobs : obsValues c5xs = [0, 0, 0, 0, 0, 0, 0, 0, 0, 25, 141] := rfl
  have hm : listMeanQ [0, 0, 0, 0, 0, 0, 0, 0, 0, 25, (141 : ℚ)] = 166 / 11 := by
    norm_num [listMeanQ, List.sum_cons, List.sum_nil]
  have hS : sumSqDev [0, 0, 0, 0, 0, 0, 0, 0, 0, 25, (141 : ℚ)] = 198010 / 11 := by
    simp only [sumSqDev, hm, List.map_cons, List.map_nil]
    norm_num [List.sum_cons, List.sum_nil]
  constructor
  · rw [detectOutliers_getD 3 c5xs 10 141 hx, hobs]
    rw [if_neg (by norm_num)]
    rw [decide_eq_false_iff_not]
    rintro ⟨hpos, hneg | hlt⟩
    · norm_num at hneg
    · rw [hS, hm] at hlt
      norm_num at hlt
  · refine ⟨by rw [hobs]; norm_num, ⟨141, hx, ?_⟩⟩
    rw [hobs]
    unfold populationStd
    rw [hS, hm]
    have hsq : Real.sqrt (((198010 / 11 : ℚ) : ℝ) /
        (([0, 0, 0, 0, 0, 0, 0, 0, 0, 25, (141 : ℚ)].length : ℕ) : ℝ)) <
        1385 / 33 := by
      rw [Real.sqrt_lt' (by norm_num : (0 : ℝ) < 1385 / 33)]
      push_cast
      norm_num
    rw [abs_of_pos (by push_cast; norm_num)]
    push_cast at hsq ⊢
    nlinarith [hsq, Real.sqrt_nonneg (((198010 / 11 : ℝ)) / 11)]

/-- C4 (amended): inserting one extreme point whose z-score within the
AUGMENTED series (the filter's statistics include the inserted point)
exceeds the threshold, while no other point of either series is flagged
and the point sorts after the non-missing history, leaves the computed
trend unchanged.  The claim's premise — extreme relative to the REST of
the series — is not enough: the counterexample shows a short series
masking the outlier. -/
theorem claim_C4_outlier_suppression (cfg : EstimationConfig) (col : String)
    (g : List Row) (p : Row)
    (hsort : sortedNonMissing col (g ++ [p]) = sortedNonMissing col g ++ [p])
    (hflags0 : detectOutliers cfg.outlier_threshold
        ((sortedNonMissing col g).map (fun r => r.val col)) =
      List.replicate (sortedNonMissing col g).length false)
    (hflags1 : detectOutliers cfg.outlier_threshold
        ((sortedNonMissing col g ++ [p]).map (fun r => r.val col)) =
      List.replicate (sortedNonMissing col g).length false ++ [true])
    (hlen : cfg.min_data_points ≤ (sortedNonMissing col g).length) :
    calculateWeightedTrend cfg col (g ++ [p]) =
      calculateWeightedTrend cfg col g := by
  unfold calculateWeightedTrend
  rw [trendDiffs_suppress cfg col g p hsort hflags0 hflags1 hlen]

/-- Witness for C4: ten observations of `5` and an extreme `16`; the
extreme point's sample z-score in the augmented series is
`10/sqrt 11 > 3`, it is flagged and dropped, and the trend is unchanged. -/
theorem claim_C4_witness :
    sortedNonMissing "power-usage-effectiveness" (c4wOrig ++ [c4wExt]) =
      sortedNonMissing "power-usage-effectiveness" c4wOrig ++ [c4wExt] ∧
    detectOutliers defaultConfig.outlier_threshold
        ((sortedNonMissing "power-usage-effectiveness" c4wOrig).map
          (fun r => r.val "power-usage-effectiveness")) =
      List.replicate
        (sortedNonMissing "power-usage-effectiveness" c4wOrig).length false ∧
    detectOutliers defaultConfig.outlier_threshold
        ((sortedNonMissing "power-usage-effectiveness" c4wOrig ++ [c4wExt]).map
          (fun r => r.val "power-usage-effectiveness")) =
      List.replicate
        (sortedNonMissing "power-usage-effectiveness" c4wOrig).length false ++
        [true] ∧
    defaultConfig.min_data_points ≤
      (sortedNonMissing "power-usage-effectiveness" c4wOrig).length ∧
    calculateWeightedTrend defaultConfig "power-usage-effectiveness"
        (c4wOrig ++ [c4wExt]) =
      calculateWeightedTrend defaultConfig "power-usage-effectiveness" c4wOrig := by
  have hsnm0 : sortedNonMissing "power-usage-effectiveness" c4wOrig = c4wOrig := by
    decide
  have hsort : sortedNonMissing "power-usage-effectiveness" (c4wOrig ++ [c4wExt]) =
      sortedNonMissing "power-usage-effectiveness" c4wOrig ++ [c4wExt] := by
    decide
  have hmap0 : (sortedNonMissing "power-usage-effectiveness" c4wOrig).map
      (fun r => r.val "power-usage-effectiveness") =
      [some 5, some 5, some 5, some 5, some 5, some 5, some 5, some 5, some 5,
        some (5 : ℚ)] := by
    decide
  have hmap1 : ((sortedNonMissing "power-usage-effectiveness" c4wOrig ++ [c4wExt]).map
      (fun r => r.val "power-usage-effectiveness")) =
      [some 5, some 5, some 5, some 5, some 5, some 5, some 5, some 5, some 5,
        some 5, some (16 : ℚ)] := by
    decide
  have hm0 : listMeanQ [5, 5, 5, 5, 5, 5, 5, 5, 5, (5 : ℚ)] = 5 := by
    norm_num [listMeanQ, List.sum_cons, List.sum_nil]
  have hS0 : sumSqDev [5, 5, 5, 5, 5, 5, 5, 5, 5, (5 : ℚ)] = 0 := by
    simp only [sumSqDev, hm0, List.map_cons, List.map_nil]
    norm_num [List.sum_cons, List.sum_nil]
  have hm1 : listMeanQ [5, 5, 5, 5, 5, 5, 5, 5, 5, 5, (16 : ℚ)] = 6 := by
    norm_num [listMeanQ, List.sum_cons, List.sum_nil]
  have hS1 : sumSqDev [5, 5, 5, 5, 5, 5, 5, 5, 5, 5, (16 : ℚ)] = 110 := by
    simp only [sumSqDev, hm1, List.map_cons, List.map_nil]
    norm_num [List.sum_cons, List.sum_nil]
  have hobs0 : obsValues [some 5, some 5, some 5, some 5, some 5, some 5, some 5,
      some 5, some 5, some (5 : ℚ)] = [5, 5, 5, 5, 5, 5, 5, 5, 5, (5 : ℚ)] := rfl
  have hobs1 : obsValues [some 5, some 5, some 5, some 5, some 5, some 5, some 5,
      some 5, some 5, some 5, some (16 : ℚ)] =
      [5, 5, 5, 5, 5, 5, 5, 5, 5, 5, (16 : ℚ)] := rfl
  have hflags0 : detectOutliers defaultConfig.outlier_threshold
      ((sortedNonMissing "power-usage-effectiveness" c4wOrig).map
        (fun r => r.val "power-usage-effectiveness")) =
      List.replicate
        (sortedNonMissing "power-usage-effectiveness" c4wOrig).length false := by
    rw [hmap0, hsnm0]
    show detectOutliers 3 _ = _
    unfold detectOutliers
    rw [hobs0]
    rw [if_neg (by norm_num)]
    simp only [List.map_cons, List.map_nil, hobs0, hS0]
    norm_num [c4wOrig, trRow, List.replicate]
  have hflags1 : detectOutliers defaultConfig.outlier_threshold
      ((sortedNonMissing "power-usage-effectiveness" c4wOrig ++ [c4wExt]).map
        (fun r => r.val "power-usage-effectiveness")) =
      List.replicate
        (sortedNonMissing "power-usage-effectiveness" c4wOrig).length false ++
        [true] := by
    rw [hmap1, hsnm0]
    show detectOutliers 3 _ = _
    unfold detectOutliers
    rw [hobs1]
    rw [if_neg (by norm_num)]
    simp only [List.map_cons, List.map_nil, hobs1, hS1, hm1]
    norm_num [c4wOrig, trRow, List.replicate]
  have hlen : defaultConfig.min_data_points ≤
      (sortedNonMissing "power-usage-effectiveness" c4wOrig).length := by
    decide
  exact ⟨hsort, hflags0, hflags1, hlen,
    claim_C4_outlier_suppression defaultConfig "power-usage-effectiveness"
      c4wOrig c4wExt hsort hflags0 hflags1 hlen⟩

/-- C4 counterexample to the claim as stated: the history `1, 2` plus an
inserted `1000` — more than 3 standard deviations (both population and
sample) from the rest — computes trend `(1 + 998 e)/(1 + e) ≈ 732`, not
the original trend `1`: in a 3-point series the sample z-score can never
exceed `2/sqrt 3`, so the filter cannot flag the extreme point. -/
theorem claim_C4_counterexample :
    (((1000 : ℚ) - listMeanQ [1, 2]) ^ 2 >
        9 * (sumSqDev [1, 2] / (([1, 2] : List ℚ).length - 1)) ∧
      ((1000 : ℚ) - listMeanQ [1, 2]) ^ 2 >
        9 * (sumSqDev [1, 2] / (([1, 2] : List ℚ).length : ℚ))) ∧
    calculateWeightedTrend defaultConfig "power-usage-effectiveness"
        (c4orig ++ [c4ext]) ≠
      calculateWeightedTrend defaultConfig "power-usage-effectiveness" c4orig := by
  have hm2 : listMeanQ [1, (2 : ℚ)] = 3 / 2 := by
    norm_num [listMeanQ, List.sum_cons, List.sum_nil]
  have hS2 : sumSqDev [1, (2 : ℚ)] = 1 / 2 := by
    simp only [sumSqDev, hm2, List.map_cons, List.map_nil]
    norm_num [List.sum_cons, List.sum_nil]
  constructor
  · rw [hm2, hS2]
    norm_num
  · have hsnm : sortedNonMissing "power-usage-effectiveness" c4orig = c4orig := by
      decide
    have hsnm2 : sortedNonMissing "power-usage-effectiveness" (c4orig ++ [c4ext]) =
        c4orig ++ [c4ext] := by
      decide
    have hclean : cleanGroup defaultConfig.outlier_threshold
        "power-usage-effectiveness" c4orig = c4orig := by
      decide
    have hm3 : listMeanQ [1, 2, (1000 : ℚ)] = 1003 / 3 := by
      norm_num [listMeanQ, List.sum_cons, List.sum_nil]
    have hS3 : sumSqDev [1, 2, (1000 : ℚ)] = 1994006 / 3 := by
      simp only [sumSqDev, hm3, List.map_cons, List.map_nil]
      norm_num [List.sum_cons, List.sum_nil]
    have hobs3 : obsValues [some 1, some 2, some (1000 : ℚ)] =
        [1, 2, (1000 : ℚ)] := rfl
    have hflags3 : detectOutliers defaultConfig.outlier_threshold
        ((c4orig ++ [c4ext]).map (fun r => r.val "power-usage-effectiveness")) =
        [false, false, false] := by
      have hmap : (c4orig ++ [c4ext]).map
          (fun r => r.val "power-usage-effectiveness") =
          [some 1, some 2, some (1000 : ℚ)] := by
        decide
      rw [hmap]
      show detectOutliers 3 _ = _
      unfold detectOutliers
      rw [hobs3]
      rw [if_neg (by norm_num)]
      simp only [List.map_cons, List.map_nil, hobs3, hS3, hm3]
      norm_num
    have hclean2 : cleanGroup defaultConfig.outlier_threshold
        "power-usage-effectiveness" (c4orig ++ [c4ext]) = c4orig ++ [c4ext] := by
      unfold cleanGroup
      rw [hflags3]
      decide
    have hfm1 : (c4orig.filterMap (fun r => r.val "power-usage-effectiveness")) =
        [1, (2 : ℚ)] := by
      decide
    have hfm2 : ((c4orig ++ [c4ext]).filterMap
        (fun r => r.val "power-usage-effectiveness")) = [1, 2, (1000 : ℚ)] := by
      decide
    have hcd1 : cleanDiffs defaultConfig "power-usage-effectiveness" c4orig =
        [1] := by
      unfold cleanDiffs
      rw [hsnm, hclean, hfm1]
      simp only [diffsQ]
      norm_num
    have hcd2 : cleanDiffs defaultConfig "power-usage-effectiveness"
        (c4orig ++ [c4ext]) = [1, 998] := by
      unfold cleanDiffs
      rw [hsnm2, hclean2, hfm2]
      simp only [diffsQ]
      norm_num
    have e1 : trendDiffs defaultConfig "power-usage-effectiveness" c4orig =
        some [1] := by
      unfold trendDiffs
      rw [hsnm, hclean, hcd1]
      norm_num [c4orig, defaultConfig]
    have e2 : trendDiffs defaultConfig "power-usage-effectiveness"
        (c4orig ++ [c4ext]) = some [1, 998] := by
      unfold trendDiffs
      rw [hsnm2, hclean2, hcd2]
      norm_num [c4orig, defaultConfig]
    unfold calculateWeightedTrend
    rw [e1, e2]
    show weightedAvgExp [1, 998] ≠ weightedAvgExp [1]
    rw [weightedAvgExp_single, weightedAvgExp_pair]
    have hep : (0 : ℝ) < Real.exp 1 := Real.exp_pos 1
    have hW : (0 : ℝ) < 1 + Real.exp 1 := by linarith
    intro hEq
    rw [div_eq_iff (ne_of_gt hW)] at hEq
    push_cast at hEq
    linarith

/-! C6: columns with no data anywhere. -/

theorem lookup_map_keys (keys : List String) (f : String → Cell) (col : String)
    (h : col ∈ keys) :
    (keys.map (fun k => (k, f k))).lookup col = some (f col) := by
  induction keys with
  | nil => cases h
  | cons a tl ih =>
    rw [List.map_cons]
    by_cases hc : col = a
    · subst hc
      simp [List.lookup]
    · have h2 : col ∈ tl := by
        rcases List.mem_cons.mp h with h1 | h1
        · exact absurd h1 hc
        · exact h1
      simp only [List.lookup, beq_eq_false_iff_ne.mpr hc]
      exact ih h2

theorem cellValue_all_missing (df : Table) (cfg : EstimationConfig)
    (col : String) (r : Row) (ya : ℤ) (hr : r ∈ df.rows)
    (hnone : ∀ r2 ∈ df.rows, r2.val col = none) :
    cellValue df cfg col r ya = Cell.na := by
  have hhist : historicalRows df col = [] := by
    rw [historicalRows, List.filter_eq_nil_iff]
    intro r2 hr2
    rw [hnone r2 hr2]
    simp
  have hgrp : groupOf df col (keyOf r) = [] := by
    rw [groupOf, hhist]
    rfl
  unfold cellValue
  rw [if_pos hgrp, hnone r hr]

/-- C6 (amended): a numeric metric column with no non-missing value
anywhere in the table (pandas types an all-NaN CSV column float64, so it
IS in `numeric_columns`) is emitted by `estimate_future_years` as the
explicit `"NA"` sentinel in every cell of every output forecast row — it
does not stay blank, and `save_estimates` further writes `na_rep='NA'`,
collapsing the blank/sentinel distinction in the CSV. -/
theorem claim_C6_absent_column (df : Table) (cfg : EstimationConfig)
    (col : String) (hcol : col ∈ df.numericCols)
    (hnone : ∀ r ∈ df.rows, r.val col = none) :
    ∀ n : ℤ, ∀ row ∈ outputTable df cfg n,
      row.cells.lookup col = some Cell.na ∧ Cell.na ≠ Cell.blank := by
  intro n row hrow
  rcases (mem_outputTable df cfg n row).mp hrow with ⟨Y, hY, hbatch⟩
  rcases List.mem_map.mp hbatch with ⟨r, hr, rfl⟩
  constructor
  · show (df.numericCols.map
      (fun c => (c, cellValue df cfg c r (Y - baseYear df)))).lookup col =
        some Cell.na
    rw [lookup_map_keys df.numericCols
      (fun c => cellValue df cfg c r (Y - baseYear df)) col hcol]
    rw [cellValue_all_missing df cfg col r _ (mostRecent_subset df r hr) hnone]
  · simp

/-- Witness for C6 at a concrete table with an all-missing column. -/
theorem claim_C6_witness :
    "total-water-input" ∈ tblNaCol.numericCols ∧
    (∀ r ∈ tblNaCol.rows, r.val "total-water-input" = none) ∧
    (∀ n : ℤ, ∀ row ∈ outputTable tblNaCol defaultConfig n,
      row.cells.lookup "total-water-input" = some Cell.na ∧
        Cell.na ≠ Cell.blank) := by
  have h1 : "total-water-input" ∈ tblNaCol.numericCols := by decide
  have h2 : ∀ r ∈ tblNaCol.rows, r.val "total-water-input" = none := by decide
  exact ⟨h1, h2, claim_C6_absent_column tblNaCol defaultConfig
    "total-water-input" h1 h2⟩

/-- C6 counterexample to the claim as stated: the improved estimator
emits the `"NA"` sentinel — not a blank — for a column that has no data
anywhere; the blank state never appears in its output. -/
theorem claim_C6_counterexample :
    ("total-water-input" ∈ tblNaCol.numericCols ∧
      ∀ r ∈ tblNaCol.rows, r.val "total-water-input" = none) ∧
    (outputTable tblNaCol defaultConfig 1).map
        (fun row => row.cells.lookup "total-water-input") = [some Cell.na] ∧
    Cell.na ≠ Cell.blank := by
  exact ⟨⟨by decide, by decide⟩, by decide, by decide⟩

/-! C1: the constraint invariant. -/

theorem rep_of_eq_intCast (b : ℚ) (p : ℕ) (k : ℤ) (h : b * 10 ^ p = (k : ℚ)) :
    Representable b p := by
  unfold Representable
  rw [h, Rat.den_intCast]

theorem decimalsOf_pue : decimalsOf (26 / 25) = 2 := by
  unfold decimalsOf
  have harg : (26 / 25 : ℚ) * 10 ^ 10 = 10400000000 := by norm_num
  rw [harg]
  have hfl : roundHEQ (10400000000 : ℚ) = 10400000000 := by
    unfold roundHEQ
    have h1 : Int.fract (10400000000 : ℚ) = 0 := by norm_num [Int.fract]
    rw [h1, if_pos (by norm_num)]
    norm_num
  rw [hfl]
  decide

theorem preservePrecision_tblPue :
    preservePrecision tblPue "power-usage-effectiveness" = 2 := by
  unfold preservePrecision
  rw [if_neg (by decide)]
  have hv : tblPue.rows.filterMap
      (fun r => r.val "power-usage-effectiveness") = [26 / 25] := rfl
  rw [hv, if_neg (by simp), List.map_cons, List.map_nil, decimalsOf_pue]
  rfl

/-- C1 (amended): in every run whose configured bounds are representable
at the inferred precision of their columns (true of the default
configuration, whose bounds are the integers 1.0, 0.0 and 1.0), every
numeric output cell respects its class bound: carbon-intensity columns
are ≥ `min_carbon_intensity`, CFE columns lie in `[min_cfe, max_cfe]`,
PUE ≥ `min_pue`, and WUE ≥ 0 (the WUE floor 0 needs no proviso).
Constraint classes are decided by exact column-name matching.  Without
the proviso the claim fails: rounding happens after constraining and can
cross a non-representable bound (see the counterexample). -/
theorem claim_C1_constraint_invariant (df : Table) (cfg : EstimationConfig)
    (n : ℤ) (hrep : boundsRepresentable df cfg) :
    tableWithinBounds cfg (outputTable df cfg n) := by
  intro row hrow pc hpc
  rcases (mem_outputTable df cfg n row).mp hrow with ⟨Y, hY, hbatch⟩
  rcases List.mem_map.mp hbatch with ⟨r, hr, rfl⟩
  rcases List.mem_map.mp hpc with ⟨col, hcol, rfl⟩
  rcases hv : r.val col with _ | v
  · rw [cellValue_none df cfg col r _ hv]
    exact trivial
  · rw [cellValue_some df cfg col r _ v (mostRecent_subset df r hr) hv,
      emitNum_eq]
    exact roundTo_bounds cfg df col _ hrep

/-- Witness for C1: the default configuration is representable at the
inferred precision of the concrete table, and its run satisfies every
bound. -/
theorem claim_C1_witness :
    boundsRepresentable tblPue defaultConfig ∧
    tableWithinBounds defaultConfig (outputTable tblPue defaultConfig 1) := by
  have hrep : boundsRepresentable tblPue defaultConfig := by
    refine ⟨by norm_num [defaultConfig], ?_, ?_, ?_⟩
    · rw [preservePrecision_tblPue]
      exact rep_of_eq_intCast 1 2 100 (by norm_num)
    · intro col hcol
      simp only [CFE_COLUMNS, List.mem_cons, List.not_mem_nil, or_false] at hcol
      rcases hcol with rfl | rfl
      · rw [show preservePrecision tblPue "provider-cfe-hourly" = 0 from by decide]
        exact ⟨rep_of_eq_intCast 0 0 0 (by norm_num),
          rep_of_eq_intCast 1 0 1 (by norm_num)⟩
      · rw [show preservePrecision tblPue "provider-cfe-annual" = 0 from by decide]
        exact ⟨rep_of_eq_intCast 0 0 0 (by norm_num),
          rep_of_eq_intCast 1 0 1 (by norm_num)⟩
    · intro col hcol
      simp only [CARBON_INTENSITY_COLUMNS, List.mem_cons, List.not_mem_nil,
        or_false] at hcol
      rcases hcol with rfl | rfl | rfl | rfl | rfl | rfl <;>
        refine rep_of_eq_intCast 0 _ 0 (by norm_num)
  exact ⟨hrep, claim_C1_constraint_invariant tblPue defaultConfig 1 hrep⟩

/-- C1 counterexample to the claim as stated: with `min_pue = 1.0537`
(any float is accepted by `--min-pue`) and a PUE history of `1.04`
(inferred precision 2), the successful run constrains the estimate up to
`1.0537` and then rounds it DOWN to `1.05 < min_pue`: the emitted cell
violates the claimed invariant. -/
theorem claim_C1_counterexample :
    estimateFutureYears tblPue cfgPue 1 0 =
      Except.ok (outputTable tblPue cfgPue 1, metadataOf tblPue cfgPue 1 0) ∧
    (outputTable tblPue cfgPue 1).map
        (fun row => row.cells.lookup "power-usage-effectiveness") =
      [some (Cell.num (21 / 20))] ∧
    (21 / 20 : ℚ) < cfgPue.min_pue ∧
    ¬ tableWithinBounds cfgPue (outputTable tblPue cfgPue 1) := by
  have hrow1 : rowPue ∈ tblPue.rows := List.mem_cons_self _ _
  have hv : rowPue.val "power-usage-effectiveness" = some (26 / 25) := rfl
  have hr105 : roundHEQ (10537 / 100 : ℚ) = 105 := by
    unfold roundHEQ
    have hfr : Int.fract (10537 / 100 : ℚ) = 37 / 100 := by norm_num [Int.fract]
    rw [hfr, if_pos (by norm_num)]
    norm_num
  have hcell : cellValue tblPue cfgPue "power-usage-effectiveness" rowPue 1 =
      Cell.num (21 / 20) := by
    rw [cellValue_some tblPue cfgPue _ rowPue 1 (26 / 25) hrow1 hv]
    have htr : calculateWeightedTrend cfgPue "power-usage-effectiveness"
        (groupOf tblPue "power-usage-effectiveness" (keyOf rowPue)) = 0 :=
      calculateWeightedTrend_of_short _ _ _ (by decide)
    rw [htr, emitNum_eq]
    have hest : ((26 / 25 : ℚ) : ℝ) + 0 * ((1 : ℤ) : ℝ) =
        ((26 / 25 : ℚ) : ℝ) := by norm_num
    rw [hest]
    have happ : applyConstraints cfgPue "power-usage-effectiveness"
        ((26 / 25 : ℚ) : ℝ) = ((10537 / 10000 : ℚ) : ℝ) := by
      unfold applyConstraints
      rw [if_neg (by decide), if_neg (by decide), if_pos rfl]
      rw [max_eq_left]
      rw [show cfgPue.min_pue = 10537 / 10000 from rfl]
      exact_mod_cast (by norm_num : (26 / 25 : ℚ) ≤ 10537 / 10000)
    rw [happ, preservePrecision_tblPue, roundTo_ratCast]
    unfold roundToQ
    rw [show (10537 / 10000 : ℚ) * 10 ^ 2 = 10537 / 100 by norm_num, hr105]
    norm_num
  have hout : outputTable tblPue cfgPue 1 =
      [⟨"aws", "us-east-1", 2025,
        [("power-usage-effectiveness",
          cellValue tblPue cfgPue "power-usage-effectiveness" rowPue 1)]⟩] := rfl
  refine ⟨?_, ?_, ?_, ?_⟩
  · unfold estimateFutureYears
    rw [if_neg (by decide), if_neg (by
      rw [show mostRecent tblPue = [rowPue] from rfl]
      simp)]
  · rw [hout, List.map_cons, List.map_nil, hcell]
    rfl
  · rw [show cfgPue.min_pue = 10537 / 10000 from rfl]
    norm_num
  · intro htb
    have hmem : (⟨"aws", "us-east-1", 2025,
        [("power-usage-effectiveness", Cell.num (21 / 20))]⟩ : ORow) ∈
        outputTable tblPue cfgPue 1 := by
      rw [hout, hcell]
      exact List.mem_cons_self _ _
    have hb := htb _ hmem ("power-usage-effectiveness", Cell.num (21 / 20))
      (List.mem_cons_self _ _)
    have hple := hb.2.2.1 rfl
    rw [show cfgPue.min_pue = 10537 / 10000 from rfl] at hple
    norm_num at hple

end RTC
